import Mathlib

/-!
Verification of the XBRL ETL pipeline core.

Shallow embedding, translated from the Python sources:
  src/parser/normalizer.py       (ValueNormalizer)
  src/parser/context_handler.py  (ContextHandler)
  src/parser/xbrl_parser.py      (XbrlParser)
  src/parser/metadata_extractor.py  (MetadataExtractor, security-code field)
  src/db/resume_registry.py      (ResumeRegistry)
  src/executor.py                (BatchExecutor)
  src/pipeline/etl_runner.py     (process_zip_file, EtlRunner.run)

Python strings are modelled as Lean String / List Char; machine floats are
modelled exactly (see PyFloat below); raising code returns Except.
-/

/-! ### String helpers (Python string primitives, written structurally) -/

/-- Python str.strip(): drop surrounding whitespace. -/
def pyStrip (s : String) : String :=
  ⟨((s.toList.dropWhile Char.isWhitespace).reverse.dropWhile Char.isWhitespace).reverse⟩

/-- Auxiliary for splitOnChar: accumulate the current segment (reversed). -/
def splitOnCharAux (sep : Char) : List Char → List Char → List (List Char)
  | [], acc => [acc.reverse]
  | c :: rest, acc =>
    if c = sep then acc.reverse :: splitOnCharAux sep rest []
    else splitOnCharAux sep rest (c :: acc)

/-- Python str.split(sep) for a one-character separator. -/
def splitOnChar (sep : Char) (cs : List Char) : List (List Char) :=
  splitOnCharAux sep cs []

/-- Python os.path.basename: the part after the last slash. -/
def basename (p : String) : String :=
  ⟨((splitOnChar '/' p.toList).getLastD p.toList)⟩

/-- Largest index of a dot in the character list, if any (str.rfind). -/
def lastDotIndex (cs : List Char) : Option Nat :=
  ((List.range cs.length).filter (fun i => cs.getD i ' ' = '.')).getLast?

/-- Python os.path.splitext(b)[0] for a path without directory separators:
split at the last dot, unless every character before it is itself a dot. -/
def splitextStem (b : String) : String :=
  let cs := b.toList
  match lastDotIndex cs with
  | none => b
  | some j =>
    if 0 < j && (cs.take j).any (fun c => c != '.') then ⟨cs.take j⟩ else b

/-- Does the needle occur at offset i of the haystack? (Boolean form.) -/
def matchesAt (pat s : List Char) (i : Nat) : Bool :=
  ((s.drop i).take pat.length) == pat

/-- Python `needle in haystack` substring test, as a scan over all offsets. -/
def listHasSub (needle s : List Char) : Bool :=
  (List.range (s.length + 1)).any (fun i => matchesAt needle s i)

/-- Substring containment on String (re.search of a literal pattern). -/
def strHasSub (needle s : String) : Bool :=
  listHasSub needle.toList s.toList

/-- Python str.replace(pat, rep) with a non-empty pattern; fuel-structured
left-to-right non-overlapping replacement (fuel := input length suffices). -/
def replaceAllAux (pat rep : List Char) : Nat → List Char → List Char
  | _, [] => []
  | 0, l => l
  | fuel + 1, c :: rest =>
    if ((c :: rest).take pat.length) == pat then
      rep ++ replaceAllAux pat rep fuel ((c :: rest).drop pat.length)
    else
      c :: replaceAllAux pat rep fuel rest

/-- Python str.replace on String. -/
def pyReplace (s pat rep : String) : String :=
  ⟨replaceAllAux pat.toList rep.toList s.toList.length s.toList⟩

/-- Propositional occurrence: the needle occurs at offset i of the haystack. -/
def OccursAt (needle s : List Char) (i : Nat) : Prop :=
  (s.drop i).take needle.length = needle

instance (needle s : List Char) (i : Nat) : Decidable (OccursAt needle s i) := by
  unfold OccursAt; infer_instance

/-- Propositional substring containment. -/
def ContainsSub (needle s : String) : Prop :=
  ∃ i, OccursAt needle.toList s.toList i

/-! ### Python value model -/

/-- Exceptions that matter for the embedded code. -/
inductive PyError where
  | typeError
  | valueError
  deriving DecidableEq

/-- A Python float value.  Python floats are IEEE doubles; the embedding keeps
the mathematically exact value as a rational, which is faithful for every
value the specification mentions (all are exactly representable). -/
inductive PyFloat where
  | finite (q : ℚ)
  | inf
  | neginf
  | nan
  deriving DecidableEq

/-- The dynamic value passed to ValueNormalizer.normalize
(Union[str, float, int], plus None). -/
inductive PyVal where
  | none
  | str (s : String)
  | int (n : ℤ)
  | float (f : PyFloat)
  deriving DecidableEq

/-! ### float(str): the Python float-from-string conversion -/

/-- A run of decimal digits with single underscores only between digits
(the CPython number-literal rule); must be non-empty. -/
def isDigitRun : List Char → Bool
  | [] => false
  | c :: rest => c.isDigit && isDigitRunTail rest
where
  isDigitRunTail : List Char → Bool
  | [] => true
  | '_' :: c :: rest => c.isDigit && isDigitRunTail rest
  | c :: rest => c.isDigit && isDigitRunTail rest

/-- Remove the underscores of a digit run. -/
def digitsOnly (cs : List Char) : List Char :=
  cs.filter (fun c => c != '_')

/-- Decimal value of a digit list. -/
def digitsToNat (cs : List Char) : Nat :=
  cs.foldl (fun acc c => acc * 10 + (c.toNat - '0'.toNat)) 0

/-- Split at the first exponent marker e or E, if any. -/
def splitAtExp : List Char → List Char × Option (List Char)
  | [] => ([], Option.none)
  | c :: rest =>
    if c = 'e' || c = 'E' then ([], some rest)
    else
      let (m, e) := splitAtExp rest
      (c :: m, e)

/-- Split at the first dot, if any. -/
def splitAtDot : List Char → List Char × Option (List Char)
  | [] => ([], Option.none)
  | c :: rest =>
    if c = '.' then ([], some rest)
    else
      let (m, e) := splitAtDot rest
      (c :: m, e)

/-- Parse an unsigned mantissa `digits [. digits]` into (numerator, number of
fractional digits); integer part and fractional part may each be empty, but
not both. -/
def parseMantissa (cs : List Char) : Option (Nat × Nat) :=
  let (ip, fp?) := splitAtDot cs
  match fp? with
  | Option.none => if isDigitRun ip then some (digitsToNat (digitsOnly ip), 0) else Option.none
  | some fp =>
    if ip.isEmpty && fp.isEmpty then Option.none
    else if (ip.isEmpty || isDigitRun ip) && (fp.isEmpty || isDigitRun fp) then
      let fd := digitsOnly fp
      some (digitsToNat (digitsOnly ip) * 10 ^ fd.length + digitsToNat fd, fd.length)
    else Option.none

/-- Apply a leading minus sign. -/
def signApply (neg : Bool) (q : ℚ) : ℚ :=
  if neg then -q else q

/-- Python float(s) on a string: strip whitespace, optional sign, then either
inf/infinity/nan (case-insensitive) or `digits [. digits] [(e|E) [sign] digits]`.
Returns none where Python raises ValueError.  Digits are modelled as ASCII
decimal digits, the form XBRL numeric values take. -/
def pyFloatOfString (s : String) : Option PyFloat :=
  let cs := (pyStrip s).toList
  if cs.isEmpty then Option.none
  else
    let (neg, body) :=
      match cs with
      | '+' :: rest => (false, rest)
      | '-' :: rest => (true, rest)
      | _ => (false, cs)
    let low := body.map Char.toLower
    if low = "inf".toList || low = "infinity".toList then
      some (if neg then PyFloat.neginf else PyFloat.inf)
    else if low = "nan".toList then some PyFloat.nan
    else
      let (mant, expPart) := splitAtExp body
      match parseMantissa mant with
      | Option.none => Option.none
      | some (num, scale) =>
        match expPart with
        | Option.none =>
          some (.finite (signApply neg ((num : ℚ) / (10 : ℚ) ^ scale)))
        | some ecs =>
          let (eneg, ebody) :=
            match ecs with
            | '+' :: r => (false, r)
            | '-' :: r => (true, r)
            | _ => (false, ecs)
          if isDigitRun ebody then
            let e := digitsToNat (digitsOnly ebody)
            some (.finite (signApply neg
              (((num : ℚ) / (10 : ℚ) ^ scale) *
                (10 : ℚ) ^ (if eneg then -(e : ℤ) else (e : ℤ)))))
          else Option.none

/-! ### ValueNormalizer (src/parser/normalizer.py) -/

/-- ValueNormalizer.normalize: convert to float without any scaling; the
decimals and unit_ref parameters are accepted but ignored; None and any
string float() rejects yield 0.0. -/
def ValueNormalizer.normalize (value : PyVal)
    (decimals : Option String) (unit_ref : Option String) : PyFloat :=
  match value with
  | .none => .finite 0
  | .str s =>
    match pyFloatOfString s with
    | some f => f
    | Option.none => .finite 0
  | .int n => .finite (n : ℚ)
  | .float f => f

/-! ### ContextHandler (src/parser/context_handler.py) -/

/-- The successful-path body of ContextHandler.get_period_type: re.search for
Instant, else Duration, else Unknown. -/
def period_type_of (context_id : String) : String :=
  if strHasSub "Instant" context_id then "Instant"
  else if strHasSub "Duration" context_id then "Duration"
  else "Unknown"

/-- ContextHandler.get_period_type.  There is no null guard in the source: on
a null context_id the first re.search call raises TypeError; on a string it
delegates to period_type_of. -/
def ContextHandler.get_period_type : Option String → Except PyError String
  | Option.none => .error .typeError
  | some cid => .ok (period_type_of cid)

/-- re.search of the pattern (?<!Non)Consolidated: some occurrence of
Consolidated whose three preceding characters are not Non. -/
def searchConsolidatedNotNon (s : List Char) : Bool :=
  (List.range (s.length + 1)).any (fun i =>
    matchesAt ("Consolidated".toList) s i &&
      !(decide (3 ≤ i) && matchesAt ("Non".toList) s (i - 3)))

/-- ContextHandler.is_consolidated_current: falsy guard, then the three
regex tests of the source in order. -/
def ContextHandler.is_consolidated_current : Option String → Bool
  | Option.none => false
  | some cid =>
    if cid = "" then false
    else if !strHasSub "CurrentYear" cid then false
    else if !searchConsolidatedNotNon cid.toList then false
    else if strHasSub "NonConsolidated" cid then false
    else true

/-- Spec-side reading of the lookbehind: Consolidated occurs somewhere not
immediately preceded by Non. -/
def HasConsolidatedNotNon (s : String) : Prop :=
  ∃ i, OccursAt ("Consolidated".toList) s.toList i ∧
    ¬(3 ≤ i ∧ OccursAt ("Non".toList) s.toList (i - 3))

/-! ### Document model and XbrlParser (src/parser/xbrl_parser.py) -/

/-- One markup element of a parsed document: tag name, the three attributes
the parser reads, and the (descendant-concatenated) text content.  BeautifulSoup
absent attributes are modelled as none. -/
structure Element where
  name : String
  contextRef : Option String
  unitRef : Option String
  decimals : Option String
  text : String
  deriving DecidableEq

/-- One extracted fact record, the dictionary built at the end of the parse
loop. -/
structure FactRow where
  security_code : String
  doc_id : String
  period : String
  tag_name : String
  context_id : String
  raw_value : String
  normalized_value : Option PyFloat
  unit : Option String
  decimals : Option String
  deriving DecidableEq

/-- The structural-noise tag names skipped by the parse loop. -/
def noiseTags : List String :=
  ["xbrl", "link", "schemaRef", "context", "unit", "header", "hidden", "measure"]

/-- The linking-infrastructure namespace heads skipped by the parse loop. -/
def linkNamespaces : List String :=
  ["link", "xbrli", "xlink"]

/-- tag.name.split(':')[0]. -/
def nsHead (name : String) : String :=
  ⟨((splitOnChar ':' name.toList).headD name.toList)⟩

/-- XbrlParser.MAX_TEXT_LENGTH. -/
def XbrlParser.MAX_TEXT_LENGTH : Nat := 500

/-- One iteration of the XbrlParser.parse loop: the record the element
contributes, if any.  Follows the source order: noise-tag skip, namespace
skip, contextRef falsy skip, empty-text skip, numeric/text classification,
TextBlock and length exclusion for text, then record construction. -/
def emitFact (security_code : Option String) (doc_id : String) (e : Element) :
    Option FactRow :=
  if noiseTags.contains e.name then Option.none
  else if strHasSub ":" e.name && linkNamespaces.contains (nsHead e.name) then Option.none
  else
    match e.contextRef with
    | Option.none => Option.none
    | some context_id =>
      if context_id = "" then Option.none
      else
        let raw_value := pyStrip e.text
        if raw_value = "" then Option.none
        else
          let is_numeric := e.unitRef.isSome || e.decimals.isSome
          let normalized? : Option (Option PyFloat) :=
            if is_numeric then
              some (some (ValueNormalizer.normalize (.str raw_value) e.decimals e.unitRef))
            else if strHasSub "TextBlock" e.name then Option.none
            else if raw_value.length > XbrlParser.MAX_TEXT_LENGTH then Option.none
            else some Option.none
          match normalized? with
          | Option.none => Option.none
          | some normalized_val =>
            some
              { security_code := (match security_code with
                  | some s => if s = "" then "Unknown" else s
                  | Option.none => "Unknown")
                doc_id := doc_id
                period := period_type_of context_id
                tag_name := e.name
                context_id := context_id
                raw_value := raw_value
                normalized_value := normalized_val
                unit := e.unitRef
                decimals := e.decimals }

/-- The security_code field of MetadataExtractor.extract: the first element
whose name re.search-matches `.*:SecurityCodeDEI$` and has truthy text yields
its stripped text truncated to 4 characters. -/
def metadata_security_code (doc : List Element) : Option String :=
  match doc.find? (fun e => matchesAt (":SecurityCodeDEI".toList)
      e.name.toList (e.name.length - ":SecurityCodeDEI".length) &&
      decide (":SecurityCodeDEI".length ≤ e.name.length)) with
  | some e => if e.text ≠ "" then some ⟨(pyStrip e.text).toList.take 4⟩ else Option.none
  | Option.none => Option.none

/-- XbrlParser.parse on an already-loaded document: extract the file-level
security code, derive the provisional doc_id from the file name (segment
before the first underscore, or the stem with ".xbrl" removed), then run the
per-element loop over the document in order. -/
def XbrlParser.parse (file_path : String) (doc : List Element) : List FactRow :=
  let sec := metadata_security_code doc
  let filename := basename file_path
  let doc_id :=
    if strHasSub "_" filename then ⟨((splitOnChar '_' filename.toList).headD filename.toList)⟩
    else pyReplace filename ".xbrl" ""
  doc.filterMap (emitFact sec doc_id)

/-! ### ResumeRegistry (src/db/resume_registry.py) -/

/-- One row of the processing_history table.  processed_at (a wall-clock
timestamp) is omitted: no claim depends on it. -/
structure ResumeEntry where
  doc_id : String
  file_path : String
  status : String
  error_message : Option String
  deriving DecidableEq

/-- Delete every row with the given doc_id (the REPLACE half of
INSERT OR REPLACE on the primary key). -/
def removeDoc (q : String) : List ResumeEntry → List ResumeEntry
  | [] => []
  | x :: t => if x.doc_id = q then removeDoc q t else x :: removeDoc q t

/-- INSERT OR REPLACE keyed on the doc_id primary key: the table is a map
keyed by doc_id, so replace the existing row or add a new one (row order in
a keyed SQL table is immaterial; the map is represented with the fresh row
in front). -/
def upsert (history : List ResumeEntry) (e : ResumeEntry) : List ResumeEntry :=
  e :: removeDoc e.doc_id history

/-- ResumeRegistry.mark_as_processed. -/
def ResumeRegistry.mark_as_processed (history : List ResumeEntry)
    (doc_id file_path : String) : List ResumeEntry :=
  upsert history ⟨doc_id, file_path, "success", Option.none⟩

/-- ResumeRegistry.mark_as_error. -/
def ResumeRegistry.mark_as_error (history : List ResumeEntry)
    (doc_id file_path error_message : String) : List ResumeEntry :=
  upsert history ⟨doc_id, file_path, "error", some error_message⟩

/-- ResumeRegistry._get_all_processed_ids: the doc_ids with status success,
together with the number of SQL queries the call executes (one bulk SELECT). -/
def ResumeRegistry.get_all_processed_ids (history : List ResumeEntry) :
    List String × Nat :=
  ((history.filter (fun e => e.status = "success")).map (fun e => e.doc_id), 1)

/-- The per-path loop of filter_unprocessed_files: keep a path when its
extracted id is not in the processed set, and keep it as well when the
extractor raises.  Generic in the item type (the source operates on path
strings and only ever applies the extractor to an item). -/
def filterLoop {α : Type} (processed_ids : List String)
    (id_extractor : α → Except String String) : List α → List α
  | [] => []
  | p :: rest =>
    match id_extractor p with
    | .ok d =>
      if processed_ids.contains d then filterLoop processed_ids id_extractor rest
      else p :: filterLoop processed_ids id_extractor rest
    | .error _ => p :: filterLoop processed_ids id_extractor rest

/-- ResumeRegistry.filter_unprocessed_files: one bulk load of the success
set, then the loop; returns the kept items and the number of SQL queries
executed. -/
def ResumeRegistry.filter_unprocessed_files {α : Type} (history : List ResumeEntry)
    (id_extractor : α → Except String String) (file_paths : List α) :
    List α × Nat :=
  let (processed_ids, q) := ResumeRegistry.get_all_processed_ids history
  (filterLoop processed_ids id_extractor file_paths, q)

/-! ### BatchExecutor (src/executor.py) -/

/-- BatchExecutor.process_files: apply the work function to every item; a
raising task is counted as an error and contributes nothing; a task returning
None contributes nothing and is counted in neither tally; a non-None result
is appended and counted as a success.  Parallel completion order is modelled
as submission order; returns (results, success_count, error_count).  The
error-directory move is a filesystem side effect with no bearing on the
returned data. -/
def BatchExecutor.process_files {α β : Type}
    (process_func : α → Except String (Option β)) : List α → List β × Nat × Nat
  | [] => ([], 0, 0)
  | a :: rest =>
    let (res, s, e) := BatchExecutor.process_files process_func rest
    match process_func a with
    | .ok (some r) => (r :: res, s + 1, e)
    | .ok Option.none => (res, s, e)
    | .error _ => (res, s, e + 1)

/-! ### process_zip_file and EtlRunner (src/pipeline/etl_runner.py) -/

/-- Contents of one zip archive: a bad signature, or the extracted relative
paths with the parsed document each holds. -/
inductive ZipContent where
  | bad
  | ok (entries : List (String × List Element))
  deriving DecidableEq

/-- One candidate archive on disk. -/
structure Archive where
  path : String
  content : ZipContent
  deriving DecidableEq

/-- The doc_id derivation at the top of process_zip_file: segment of the
file name before the first underscore, else the splitext stem. -/
def zip_doc_id (zip_path : String) : String :=
  let filename := basename zip_path
  if strHasSub "_" filename then ⟨((splitOnChar '_' filename.toList).headD filename.toList)⟩
  else splitextStem filename

/-- process_zip_file: derive the doc_id from the archive file name, raise on
a bad zip, glob the extracted tree for .xbrl files, prefer a path containing
PublicDoc and fall back to the first hit, return (doc_id, []) when none is
found, otherwise parse and overwrite every record doc_id with the
archive-derived one. -/
def process_zip_file (z : Archive) :
    Except String (Option (String × List FactRow)) :=
  let doc_id := zip_doc_id z.path
  match z.content with
  | .bad => .error "BadZipFile"
  | .ok entries =>
    let xbrl_files := (entries.map Prod.fst).filter
      (fun p => matchesAt (".xbrl".toList) p.toList (p.length - 5) && decide (5 ≤ p.length))
    let target :=
      match xbrl_files.find? (fun xf => strHasSub "PublicDoc" xf) with
      | some t => some t
      | Option.none => xbrl_files.head?
    match target with
    | Option.none => .ok (some (doc_id, []))
    | some t =>
      let doc := ((entries.find? (fun pr => pr.1 = t)).map Prod.snd).getD []
      let records := XbrlParser.parse t doc
      .ok (some (doc_id, records.map (fun r => { r with doc_id := doc_id })))

/-- The two persisted stores the runner writes: the fact table and the resume
ledger. -/
structure RunState where
  facts : List FactRow
  history : List ResumeEntry
  deriving DecidableEq

/-- The id extractor EtlRunner.run passes to the resume filter:
os.path.splitext(os.path.basename(p))[0], the full file-name stem
(pure string work, never raises). -/
def run_id_extractor (a : Archive) : Except String String :=
  .ok (splitextStem (basename a.path))

/-- The per-result persist loop of EtlRunner.run (the for-loop over a chunk
with FinancialDbClient open).  The buffered sink is explicit: insert_many
extends the buffer, flush writes and clears it on success and keeps it on
failure (FinancialDbClient.flush rolls back and re-raises without clearing).
dbFail is the storage oracle: the error message a flush of the given batch
raises, or none when the flush commits.  Per result: a falsy result is
skipped; empty records skip the insert and mark success directly; otherwise
insert and flush, then mark success on commit, or mark error with the
exception message and continue.  Returns the state and the residual buffer. -/
def persistLoop (dbFail : List FactRow → Option String) :
    List (Option (String × List FactRow)) → RunState → List FactRow →
    RunState × List FactRow
  | [], st, buffer => (st, buffer)
  | Option.none :: rest, st, buffer => persistLoop dbFail rest st buffer
  | some (doc_id, records) :: rest, st, buffer =>
    if records.isEmpty then
      persistLoop dbFail rest
        { st with history := ResumeRegistry.mark_as_processed st.history doc_id (doc_id ++ ".zip") }
        buffer
    else
      match dbFail (buffer ++ records) with
      | Option.none =>
        persistLoop dbFail rest
          { facts := st.facts ++ (buffer ++ records),
            history := ResumeRegistry.mark_as_processed st.history doc_id (doc_id ++ ".zip") }
          []
      | some msg =>
        persistLoop dbFail rest
          { st with history := ResumeRegistry.mark_as_error st.history doc_id (doc_id ++ ".zip") msg }
          (buffer ++ records)

/-- Fixed-size chunking, list[i : i+n] for i = 0, n, 2n, ...; fuel-structured
(fuel := length suffices for a positive chunk size). -/
def chunksOfAux {α : Type} (n : Nat) : Nat → List α → List (List α)
  | _, [] => []
  | 0, l => [l]
  | fuel + 1, l => l.take n :: chunksOfAux n fuel (l.drop n)

/-- Chunking with the natural fuel. -/
def chunksOf {α : Type} (n : Nat) (l : List α) : List (List α) :=
  chunksOfAux n l.length l

/-- EtlRunner.run on an already-discovered archive list: resume filter with
the full-stem extractor, then per chunk run the executor over
process_zip_file and persist the results; closing the db client flushes any
residual buffer, and a failure of that final flush propagates out of the
with-block and aborts the run (modelled as Except.error). -/
def EtlRunner.run (dbFail : List FactRow → Option String)
    (processing_chunk_size : Nat) (archives : List Archive) (st : RunState) :
    Except String RunState :=
  let files_to_process :=
    (ResumeRegistry.filter_unprocessed_files st.history run_id_extractor archives).1
  (chunksOf processing_chunk_size files_to_process).foldlM
    (fun acc chunk =>
      let results := (BatchExecutor.process_files process_zip_file chunk).1
      let (st1, buffer) := persistLoop dbFail (results.map some) acc []
      if buffer.isEmpty then .ok st1
      else
        match dbFail buffer with
        | Option.none => .ok { st1 with facts := st1.facts ++ buffer }
        | some msg => .error msg)
    st

/-! ### Concrete fixtures used by the concrete-evaluation theorems -/

/-- A document with one numeric fact, as in the end-to-end scenario of the
specification. -/
def toyotaDoc : List Element :=
  [{ name := "jppfs_cor:NetSales",
     contextRef := some "CurrentYearConsolidated_Instant",
     unitRef := some "JPY",
     decimals := Option.none,
     text := "1000000" }]

/-- An archive named by the documented convention docId_secCode_name_date.zip
holding that document under a PublicDoc folder. -/
def toyotaArchive : Archive :=
  { path := "S100ABC_7203_ToyotaTest_2024-03-26.zip",
    content := .ok [("XBRL/PublicDoc/jpcrp030000-asr-001_E00990-000_2023-12-31_01_2024-03-26.xbrl",
      toyotaDoc)] }

/-- An archive with no parseable document inside. -/
def emptyArchive : Archive :=
  { path := "S200XYZ_9999_NoXbrl_2024-05-31.zip", content := .ok [] }

/-- A storage oracle under which every flush commits. -/
def noDbFailure : List FactRow → Option String := fun _ => Option.none

/-- The empty run state: empty fact table, empty resume ledger. -/
def emptyState : RunState := { facts := [], history := [] }

/-! ### Claim theorems -/

/-- C1: the idempotence claim fails on the code.  The spec asserts that a
second EtlRunner.run over the same source directory inserts zero additional
facts because the resume filter extracts the doc_id (text before the first
underscore) and finds it marked success.  The code passes the full file-name
stem to the filter (run_id_extractor) while the ledger is keyed by the
prefix-derived doc_id, so a convention-named archive is never skipped: the
first run inserts one fact and the second run inserts it again. -/
theorem c1_second_run_reinserts_facts :
    (EtlRunner.run noDbFailure 50 [toyotaArchive] emptyState).map
        (fun s => s.facts.length) = .ok 1 ∧
    ((EtlRunner.run noDbFailure 50 [toyotaArchive] emptyState).bind
        (fun s1 => EtlRunner.run noDbFailure 50 [toyotaArchive] s1)).map
        (fun s => s.facts.length) = .ok 2 ∧
    run_id_extractor toyotaArchive = .ok "S100ABC_7203_ToyotaTest_2024-03-26" ∧
    zip_doc_id toyotaArchive.path = "S100ABC" := by
  refine ⟨rfl, rfl, rfl, rfl⟩

/-- C10: an archive with no parseable document does yield (doc_id, []) and a
success ledger entry with no facts written, but it is not skipped afterwards:
the resume filter keys on the full stem while the ledger holds the prefix
doc_id, so the second run processes the archive again instead of
short-circuiting it. -/
theorem c10_zero_fact_archive_not_skipped :
    process_zip_file emptyArchive = .ok (some ("S200XYZ", [])) ∧
    EtlRunner.run noDbFailure 50 [emptyArchive] emptyState =
      .ok { facts := [],
            history := [{ doc_id := "S200XYZ", file_path := "S200XYZ.zip",
                          status := "success", error_message := Option.none }] } ∧
    (ResumeRegistry.filter_unprocessed_files
        [{ doc_id := "S200XYZ", file_path := "S200XYZ.zip",
           status := "success", error_message := Option.none }]
        run_id_extractor [emptyArchive]).1 = [emptyArchive] := by
  refine ⟨rfl, rfl, rfl⟩

/-- C2 counterexample: get_period_type applied to null does not return
Unknown; the re.search call receives None and raises TypeError. -/
theorem c2_period_type_null_raises :
    ContextHandler.get_period_type Option.none = .error PyError.typeError := rfl

/-- C2 amended: ContextClassifier is safe on empty and on null input except
in one spot: isConsolidatedCurrent returns false on null and on the empty
string, and periodType returns Unknown on the empty string, but periodType
applied to null raises a TypeError instead of returning Unknown (the falsy
guard exists only in is_consolidated_current). -/
theorem c2_empty_null_defaults :
    ContextHandler.is_consolidated_current Option.none = false ∧
    ContextHandler.is_consolidated_current (some "") = false ∧
    ContextHandler.get_period_type (some "") = .ok "Unknown" ∧
    ContextHandler.get_period_type Option.none = .error PyError.typeError := by
  refine ⟨rfl, rfl, rfl, rfl⟩

/-- C6: ValueNormalizer.normalize is total and never fails: every input
yields a number; None and any string float() rejects yield exactly 0.0;
numeric text converts exactly; and the decimals and unit_ref parameters
never influence the result (no scaling). -/
theorem c6_normalize_total_exact_unscaled :
    (∀ v d u d2 u2, ValueNormalizer.normalize v d u = ValueNormalizer.normalize v d2 u2) ∧
    ValueNormalizer.normalize (.str "1234") Option.none Option.none = .finite 1234 ∧
    ValueNormalizer.normalize (.str "-") Option.none Option.none = .finite 0 ∧
    ValueNormalizer.normalize PyVal.none Option.none Option.none = .finite 0 ∧
    ValueNormalizer.normalize (.str "12.5") Option.none Option.none = .finite (25 / 2) ∧
    (∀ s d u, pyFloatOfString s = Option.none →
      ValueNormalizer.normalize (.str s) d u = .finite 0) := by
  refine ⟨fun v d u d2 u2 => by cases v <;> rfl, ?_, by decide, rfl, ?_, ?_⟩
  · have h : pyFloatOfString "1234" =
        some (.finite (((1234 : ℕ) : ℚ) / (10 : ℚ) ^ (0 : ℕ))) := by rfl
    simp [ValueNormalizer.normalize, h]
  · have h : pyFloatOfString "12.5" =
        some (.finite (((125 : ℕ) : ℚ) / (10 : ℚ) ^ (1 : ℕ))) := by rfl
    simp [ValueNormalizer.normalize, h]
    norm_num
  · intro s d u h
    simp [ValueNormalizer.normalize, h]

/-- C6 witness: the rejected-input conjunct applied at the concrete
non-numeric string "###". -/
theorem c6_normalize_witness :
    pyFloatOfString "###" = Option.none ∧
    ValueNormalizer.normalize (.str "###") Option.none Option.none = .finite 0 :=
  ⟨by decide, c6_normalize_total_exact_unscaled.2.2.2.2.2 "###" Option.none Option.none (by decide)⟩

/-- The per-path loop of filter_unprocessed_files is an order-preserving
filter of its input: a path survives exactly when its extracted id is not in
the processed set, or the extractor raises. -/
theorem filterLoop_eq_filter {α : Type} (ids : List String)
    (ext : α → Except String String) :
    ∀ paths : List α, filterLoop ids ext paths =
      paths.filter (fun p => match ext p with
        | .ok d => !ids.contains d
        | .error _ => true)
  | [] => rfl
  | p :: rest => by
    cases h : ext p with
    | ok d =>
      cases hc : ids.contains d <;>
        simp [filterLoop, h, hc, List.filter_cons, filterLoop_eq_filter ids ext rest]
    | error m =>
      simp [filterLoop, h, List.filter_cons, filterLoop_eq_filter ids ext rest]

/-- C5: filter_unprocessed_files loads the success set with a single bulk
query (the query count is 1 whatever the input size), returns exactly the
input paths whose extracted doc_id is not in that set, preserving input
order (the output is a filter of the input), conservatively including any
path whose extractor raises; and the bulk-loaded set holds precisely the
doc_ids with a success entry. -/
theorem c5_filter_unprocessed_files_spec {α : Type} (history : List ResumeEntry)
    (ext : α → Except String String) (paths : List α) :
    (ResumeRegistry.filter_unprocessed_files history ext paths).2 = 1 ∧
    (ResumeRegistry.filter_unprocessed_files history ext paths).1 =
      paths.filter (fun p => match ext p with
        | .ok d => !((ResumeRegistry.get_all_processed_ids history).1.contains d)
        | .error _ => true) ∧
    (∀ d, (ResumeRegistry.get_all_processed_ids history).1.contains d = true ↔
      ∃ e, e ∈ history ∧ e.status = "success" ∧ e.doc_id = d) := by
  refine ⟨rfl, filterLoop_eq_filter _ ext paths, fun d => ?_⟩
  simp [ResumeRegistry.get_all_processed_ids, List.contains, List.elem_iff,
    List.mem_map, List.mem_filter]
  constructor
  · rintro ⟨e, ⟨he, hs⟩, hd⟩
    exact ⟨e, he, by simpa using hs, hd⟩
  · rintro ⟨e, he, hs, hd⟩
    exact ⟨e, ⟨he, by simpa using hs⟩, hd⟩

/-- C9: BatchExecutor.process_files returns exactly the non-None results of
the tasks that did not raise, in order — so one raising task contributes
nothing and never prevents the remaining tasks from contributing — while the
error tally counts exactly the raising tasks and the success tally exactly
the non-None completions, so a None result is excluded silently without
being counted as an error. -/
theorem c9_process_files_isolation {α β : Type} (f : α → Except String (Option β)) :
    ∀ items : List α,
    (BatchExecutor.process_files f items).1 =
      items.filterMap (fun a => match f a with
        | .ok (some r) => some r
        | _ => Option.none) ∧
    (BatchExecutor.process_files f items).2.1 =
      (items.filter (fun a => match f a with
        | .ok (some _) => true
        | _ => false)).length ∧
    (BatchExecutor.process_files f items).2.2 =
      (items.filter (fun a => match f a with
        | .error _ => true
        | _ => false)).length
  | [] => ⟨rfl, rfl, rfl⟩
  | a :: rest => by
    obtain ⟨h1, h2, h3⟩ := c9_process_files_isolation f rest
    cases hf : f a with
    | ok o =>
      cases o <;>
        simp [BatchExecutor.process_files, hf, h1, h2, h3, List.filter_cons]
    | error m =>
      simp [BatchExecutor.process_files, hf, h1, h2, h3, List.filter_cons]

/-- Lookup of the ledger row with the given doc_id. -/
def lookupHistory : List ResumeEntry → String → Option ResumeEntry
  | [], _ => Option.none
  | e :: rest, d => if e.doc_id = d then some e else lookupHistory rest d

/-- How many non-None results of a chunk carry the given doc_id. -/
def docIdCount (results : List (Option (String × List FactRow))) (d : String) : Nat :=
  ((results.filterMap id).filter (fun r => r.1 == d)).length

/-- Upserting a row makes it the row found for its doc_id. -/
theorem lookupHistory_upsert_same (h : List ResumeEntry) (e : ResumeEntry) :
    lookupHistory (upsert h e) e.doc_id = some e := by
  simp [lookupHistory, upsert]

/-- Deleting rows of another doc_id leaves a lookup unchanged. -/
theorem lookupHistory_removeDoc (d q : String) (hne : d ≠ q) :
    ∀ h : List ResumeEntry, lookupHistory (removeDoc q h) d = lookupHistory h d
  | [] => rfl
  | x :: t => by
    by_cases hx : x.doc_id = q
    · have hxd : x.doc_id ≠ d := by rw [hx]; exact fun hc => hne hc.symm
      have hqd : q ≠ d := fun hc => hne hc.symm
      simp [removeDoc, hx, lookupHistory, hxd, hqd, lookupHistory_removeDoc d q hne t]
    · by_cases hxd : x.doc_id = d
      · simp [removeDoc, hx, lookupHistory, hxd, hne]
      · simp [removeDoc, hx, lookupHistory, hxd, lookupHistory_removeDoc d q hne t]

/-- Upserting a row of another doc_id leaves a lookup unchanged. -/
theorem lookupHistory_upsert_other (h : List ResumeEntry) (e : ResumeEntry)
    (d : String) (hne : d ≠ e.doc_id) :
    lookupHistory (upsert h e) d = lookupHistory h d := by
  have hed : e.doc_id ≠ d := fun hc => hne hc.symm
  simp [upsert, lookupHistory, hed, lookupHistory_removeDoc d e.doc_id hne h]

/-- The persist loop never touches the ledger row of a doc_id that appears in
none of its results. -/
theorem persistLoop_preserves (dbFail : List FactRow → Option String) (d : String) :
    ∀ (results : List (Option (String × List FactRow))) (st : RunState)
      (buffer : List FactRow), docIdCount results d = 0 →
      lookupHistory ((persistLoop dbFail results st buffer).1).history d =
        lookupHistory st.history d
  | [], _, _, _ => rfl
  | Option.none :: rest, st, buffer, h => by
    have hrest : docIdCount rest d = 0 := by
      simpa [docIdCount, List.filterMap_cons] using h
    rw [show persistLoop dbFail (Option.none :: rest) st buffer =
      persistLoop dbFail rest st buffer from rfl]
    exact persistLoop_preserves dbFail d rest st buffer hrest
  | some (p, recs) :: rest, st, buffer, h => by
    have hpd : (p == d) = false := by
      by_contra hc
      rw [Bool.not_eq_false] at hc
      simp [docIdCount, List.filterMap_cons, List.filter_cons, hc] at h
    have hrest : docIdCount rest d = 0 := by
      simpa [docIdCount, List.filterMap_cons, List.filter_cons, hpd] using h
    have hne : d ≠ p := by
      intro hc
      subst hc
      simp at hpd
    cases hrecs : recs.isEmpty with
    | true =>
      have step : persistLoop dbFail (some (p, recs) :: rest) st buffer =
          persistLoop dbFail rest
            { st with history := ResumeRegistry.mark_as_processed st.history p (p ++ ".zip") }
            buffer := by
        simp [persistLoop, hrecs]
      rw [step, persistLoop_preserves dbFail d rest _ buffer hrest]
      exact lookupHistory_upsert_other st.history _ d hne
    | false =>
      cases hdb : dbFail (buffer ++ recs) with
      | none =>
        have step : persistLoop dbFail (some (p, recs) :: rest) st buffer =
            persistLoop dbFail rest
              { facts := st.facts ++ (buffer ++ recs),
                history := ResumeRegistry.mark_as_processed st.history p (p ++ ".zip") }
              [] := by
          simp [persistLoop, hrecs, hdb]
        rw [step, persistLoop_preserves dbFail d rest _ [] hrest]
        exact lookupHistory_upsert_other st.history _ d hne
      | some msg =>
        have step : persistLoop dbFail (some (p, recs) :: rest) st buffer =
            persistLoop dbFail rest
              { st with history := ResumeRegistry.mark_as_error st.history p (p ++ ".zip") msg }
              (buffer ++ recs) := by
          simp [persistLoop, hrecs, hdb]
        rw [step, persistLoop_preserves dbFail d rest _ _ hrest]
        exact lookupHistory_upsert_other st.history _ d hne

/-- C3: in the Persist step, every (doc_id, facts) result of the chunk ends
with its own terminal ledger mark, whatever happens to the other results:
when persisting that document succeeds (or it has no facts to insert) the
runner upserts a success row for its doc_id, and when the flush for that
document raises some message the runner upserts an error row carrying
exactly that message and continues — so a persistence failure for one
document never aborts the processing of the remaining results (bufD is the
sink-buffer content carried into that document's flush). -/
theorem c3_persist_marks_and_continues (dbFail : List FactRow → Option String) (d : String) (recs : List FactRow) :
    ∀ (results : List (Option (String × List FactRow))) (st : RunState)
      (buffer : List FactRow),
      some (d, recs) ∈ results → docIdCount results d = 1 →
      ∃ bufD : List FactRow,
        lookupHistory ((persistLoop dbFail results st buffer).1).history d =
          some (if recs.isEmpty then
                  { doc_id := d, file_path := d ++ ".zip", status := "success",
                    error_message := Option.none }
                else
                  match dbFail (bufD ++ recs) with
                  | Option.none =>
                    { doc_id := d, file_path := d ++ ".zip", status := "success",
                      error_message := Option.none }
                  | some msg =>
                    { doc_id := d, file_path := d ++ ".zip", status := "error",
                      error_message := some msg })
  | [], _, _, hmem, _ => absurd hmem (List.not_mem_nil _)
  | Option.none :: rest, st, buffer, hmem, hcount => by
    have hmem2 : some (d, recs) ∈ rest := by
      rcases List.mem_cons.mp hmem with h | h
      · exact absurd h (by simp)
      · exact h
    have hcount2 : docIdCount rest d = 1 := by
      simpa [docIdCount, List.filterMap_cons] using hcount
    rw [show persistLoop dbFail (Option.none :: rest) st buffer =
      persistLoop dbFail rest st buffer from rfl]
    exact c3_persist_marks_and_continues dbFail d recs rest st buffer hmem2 hcount2
  | some (p, precs) :: rest, st, buffer, hmem, hcount => by
    by_cases hpd : p = d
    · have hbeq : (p == d) = true := by simp [hpd]
      have hrest0 : docIdCount rest d = 0 := by
        have := hcount
        simp [docIdCount, List.filterMap_cons, List.filter_cons, hbeq] at this
        simpa [docIdCount] using this
      have hprecs : recs = precs := by
        rcases List.mem_cons.mp hmem with h | h
        · have h2 := Option.some.inj h
          exact congrArg Prod.snd h2
        · exfalso
          have hm : (d, recs) ∈ rest.filterMap id :=
            List.mem_filterMap.mpr ⟨some (d, recs), h, rfl⟩
          have hm2 : (d, recs) ∈ (rest.filterMap id).filter (fun r => r.1 == d) :=
            List.mem_filter.mpr ⟨hm, by simp⟩
          have hpos := List.length_pos.mpr (List.ne_nil_of_mem hm2)
          have hlen : ((rest.filterMap id).filter (fun r => r.1 == d)).length = 0 := hrest0
          omega
      have hdp2 : d = p := hpd.symm
      subst hprecs
      subst hdp2
      cases hrecs : recs.isEmpty with
      | true =>
        refine ⟨[], ?_⟩
        have step : persistLoop dbFail (some (d, recs) :: rest) st buffer =
            persistLoop dbFail rest
              { st with history := ResumeRegistry.mark_as_processed st.history d (d ++ ".zip") }
              buffer := by
          simp [persistLoop, hrecs]
        rw [step, persistLoop_preserves dbFail d rest _ buffer hrest0]
        simpa using lookupHistory_upsert_same st.history
          { doc_id := d, file_path := d ++ ".zip", status := "success",
            error_message := Option.none }
      | false =>
        cases hdb : dbFail (buffer ++ recs) with
        | none =>
          refine ⟨buffer, ?_⟩
          have step : persistLoop dbFail (some (d, recs) :: rest) st buffer =
              persistLoop dbFail rest
                { facts := st.facts ++ (buffer ++ recs),
                  history := ResumeRegistry.mark_as_processed st.history d (d ++ ".zip") }
                [] := by
            simp [persistLoop, hrecs, hdb]
          rw [step, persistLoop_preserves dbFail d rest _ [] hrest0, hdb]
          simpa using lookupHistory_upsert_same st.history
            { doc_id := d, file_path := d ++ ".zip", status := "success",
              error_message := Option.none }
        | some msg =>
          refine ⟨buffer, ?_⟩
          have step : persistLoop dbFail (some (d, recs) :: rest) st buffer =
              persistLoop dbFail rest
                { st with history := ResumeRegistry.mark_as_error st.history d (d ++ ".zip") msg }
                (buffer ++ recs) := by
            simp [persistLoop, hrecs, hdb]
          rw [step, persistLoop_preserves dbFail d rest _ _ hrest0, hdb]
          simpa using lookupHistory_upsert_same st.history
            { doc_id := d, file_path := d ++ ".zip", status := "error",
              error_message := some msg }
    · have hbeq : (p == d) = false := by simp [hpd]
      have hmem2 : some (d, recs) ∈ rest := by
        rcases List.mem_cons.mp hmem with h | h
        · exfalso
          have hfst := congrArg (fun o => Option.map Prod.fst o) h
          simp at hfst
          exact hpd hfst.symm
        · exact h
      have hcount2 : docIdCount rest d = 1 := by
        simpa [docIdCount, List.filterMap_cons, List.filter_cons, hbeq] using hcount
      have hdp : d ≠ p := fun hc => hpd hc.symm
      cases hrecs2 : precs.isEmpty with
      | true =>
        have step : persistLoop dbFail (some (p, precs) :: rest) st buffer =
            persistLoop dbFail rest
              { st with history := ResumeRegistry.mark_as_processed st.history p (p ++ ".zip") }
              buffer := by
          simp [persistLoop, hrecs2]
        rw [step]
        exact c3_persist_marks_and_continues dbFail d recs rest _ buffer hmem2 hcount2
      | false =>
        cases hdb : dbFail (buffer ++ precs) with
        | none =>
          have step : persistLoop dbFail (some (p, precs) :: rest) st buffer =
              persistLoop dbFail rest
                { facts := st.facts ++ (buffer ++ precs),
                  history := ResumeRegistry.mark_as_processed st.history p (p ++ ".zip") }
                [] := by
            simp [persistLoop, hrecs2, hdb]
          rw [step]
          exact c3_persist_marks_and_continues dbFail d recs rest _ [] hmem2 hcount2
        | some msg =>
          have step : persistLoop dbFail (some (p, precs) :: rest) st buffer =
              persistLoop dbFail rest
                { st with history := ResumeRegistry.mark_as_error st.history p (p ++ ".zip") msg }
                (buffer ++ precs) := by
            simp [persistLoop, hrecs2, hdb]
          rw [step]
          exact c3_persist_marks_and_continues dbFail d recs rest _ _ hmem2 hcount2

/-- A concrete text fact used by the persist-step witness. -/
def dummyFact : FactRow :=
  { security_code := "Unknown", doc_id := "B", period := "Unknown",
    tag_name := "jpcrp_cor:NoteItem", context_id := "CurrentYearDuration",
    raw_value := "x", normalized_value := Option.none,
    unit := Option.none, decimals := Option.none }

/-- A storage oracle that fails exactly the one-row flush (so the first
document of the witness chunk fails and the second succeeds). -/
def failingOracle : List FactRow → Option String :=
  fun batch => if batch.length = 1 then some "flush failed" else Option.none

/-- The witness chunk: document B fails to persist, document C follows it. -/
def c3Results : List (Option (String × List FactRow)) :=
  [some ("B", [dummyFact]), some ("C", [dummyFact, dummyFact])]

/-- C3 witness: the persist theorem applied to the concrete chunk in which
document B's flush fails first; document C, listed after the failure, still
receives its own terminal mark. -/
theorem c3_persist_witness :
    (some ("C", [dummyFact, dummyFact]) ∈ c3Results) ∧
    docIdCount c3Results "C" = 1 ∧
    ∃ bufD : List FactRow,
      lookupHistory ((persistLoop failingOracle c3Results emptyState []).1).history "C" =
        some (if ([dummyFact, dummyFact] : List FactRow).isEmpty then
                { doc_id := "C", file_path := "C" ++ ".zip", status := "success",
                  error_message := Option.none }
              else
                match failingOracle (bufD ++ [dummyFact, dummyFact]) with
                | Option.none =>
                  { doc_id := "C", file_path := "C" ++ ".zip", status := "success",
                    error_message := Option.none }
                | some msg =>
                  { doc_id := "C", file_path := "C" ++ ".zip", status := "error",
                    error_message := some msg }) :=
  ⟨by decide, by decide,
    c3_persist_marks_and_continues failingOracle "C" [dummyFact, dummyFact]
      c3Results emptyState [] (by decide) (by decide)⟩

/-- The Boolean offset match agrees with the propositional occurrence. -/
theorem matchesAt_iff (n s : List Char) (i : Nat) :
    matchesAt n s i = true ↔ OccursAt n s i := by
  simp [matchesAt, OccursAt]

/-- A non-empty needle can only occur at an offset within the haystack. -/
theorem occursAt_lt (n s : List Char) (i : Nat) (hn : n ≠ [])
    (h : OccursAt n s i) : i < s.length + 1 := by
  by_contra hc
  push_neg at hc
  have hle : s.length ≤ i := by omega
  rw [OccursAt, List.drop_eq_nil_of_le hle, List.take_nil] at h
  exact hn h.symm

/-- The Boolean substring scan agrees with existential occurrence. -/
theorem listHasSub_iff (n s : List Char) :
    listHasSub n s = true ↔ ∃ i, OccursAt n s i := by
  rw [listHasSub, List.any_eq_true]
  constructor
  · rintro ⟨i, _, hm⟩
    exact ⟨i, (matchesAt_iff n s i).mp hm⟩
  · rintro ⟨i, h⟩
    by_cases hn : n = []
    · subst hn
      exact ⟨0, List.mem_range.mpr (by omega), (matchesAt_iff [] s 0).mpr rfl⟩
    · exact ⟨i, List.mem_range.mpr (occursAt_lt n s i hn h),
        (matchesAt_iff n s i).mpr h⟩

/-- String-level bridge: Boolean containment iff propositional containment. -/
theorem strHasSub_iff (n s : String) :
    strHasSub n s = true ↔ ContainsSub n s :=
  listHasSub_iff n.toList s.toList

/-- String-level bridge, negative form. -/
theorem strHasSub_false_iff (n s : String) :
    strHasSub n s = false ↔ ¬ContainsSub n s := by
  rw [← strHasSub_iff]
  cases strHasSub n s <;> simp

/-- The lookbehind scan agrees with: some occurrence of Consolidated is not
immediately preceded by Non. -/
theorem searchCNN_iff (s : List Char) :
    searchConsolidatedNotNon s = true ↔
      ∃ i, OccursAt ("Consolidated".toList) s i ∧
        ¬(3 ≤ i ∧ OccursAt ("Non".toList) s (i - 3)) := by
  rw [searchConsolidatedNotNon, List.any_eq_true]
  constructor
  · rintro ⟨i, _, hm⟩
    rw [Bool.and_eq_true] at hm
    refine ⟨i, (matchesAt_iff _ s i).mp hm.1, ?_⟩
    rintro ⟨h3, hocc⟩
    have := hm.2
    rw [Bool.not_eq_true', Bool.and_eq_false_iff] at this
    rcases this with h | h
    · simp at h
      omega
    · have hmm : matchesAt ("Non".toList) s (i - 3) = true :=
        (matchesAt_iff ("Non".toList) s (i - 3)).mpr hocc
      exact absurd (hmm.symm.trans h) (by decide)
  · rintro ⟨i, hocc, hnot⟩
    have hn : ("Consolidated".toList : List Char) ≠ [] := by decide
    refine ⟨i, List.mem_range.mpr (occursAt_lt _ s i hn hocc), ?_⟩
    rw [Bool.and_eq_true]
    refine ⟨(matchesAt_iff _ s i).mpr hocc, ?_⟩
    rw [Bool.not_eq_true', Bool.and_eq_false_iff]
    by_cases h3 : 3 ≤ i
    · right
      rw [Bool.eq_false_iff]
      intro hm
      exact hnot ⟨h3, (matchesAt_iff _ s (i - 3)).mp hm⟩
    · left
      simp [h3]

/-- C7: for every non-empty context identifier, isConsolidatedCurrent is true
exactly when the string contains CurrentYear and contains an occurrence of
Consolidated not immediately preceded by Non and does not contain
NonConsolidated (the defensive double-check takes precedence, as the claim
states: NonConsolidated anywhere forces false regardless of the other
conditions). -/
theorem c7_is_consolidated_current_spec (s : String) (hne : s ≠ "") :
    (ContextHandler.is_consolidated_current (some s) = true ↔
      (ContainsSub "CurrentYear" s ∧ HasConsolidatedNotNon s ∧
        ¬ContainsSub "NonConsolidated" s)) ∧
    (ContainsSub "NonConsolidated" s →
      ContextHandler.is_consolidated_current (some s) = false) := by
  have key : ContextHandler.is_consolidated_current (some s) =
      (strHasSub "CurrentYear" s && (searchConsolidatedNotNon s.toList &&
        !strHasSub "NonConsolidated" s)) := by
    simp only [ContextHandler.is_consolidated_current]
    rw [if_neg hne]
    cases hb1 : strHasSub "CurrentYear" s <;>
      cases hb2 : searchConsolidatedNotNon s.toList <;>
      cases hb3 : strHasSub "NonConsolidated" s <;> simp
  constructor
  · rw [key]
    simp only [Bool.and_eq_true, Bool.not_eq_true']
    rw [strHasSub_iff, searchCNN_iff, strHasSub_false_iff]
    exact Iff.rfl
  · intro h3
    rw [key]
    have hb : strHasSub "NonConsolidated" s = true := (strHasSub_iff _ s).mpr h3
    simp [hb]

/-- C4: for a parsed document whose element names are non-empty (an XML tag
always has a name), every emitted fact has a non-empty tag_name, a non-empty
context_id, a non-empty raw_value, and its normalized_value is set exactly
when the element carried a unitRef or a decimals attribute (the fact fields
unit and decimals copy the element attributes verbatim). -/
theorem c4_fact_invariants (path : String) (doc : List Element)
    (hnames : ∀ e ∈ doc, e.name ≠ "") :
    ∀ f ∈ XbrlParser.parse path doc,
      f.tag_name ≠ "" ∧ f.context_id ≠ "" ∧ f.raw_value ≠ "" ∧
      (f.normalized_value.isSome ↔ (f.unit.isSome ∨ f.decimals.isSome)) := by
  intro f hf
  rw [XbrlParser.parse] at hf
  obtain ⟨e, he, heq⟩ := List.mem_filterMap.mp hf
  have hname := hnames e he
  by_cases h1 : e.name ∈ noiseTags
  · simp [emitFact, h1] at heq
  by_cases h2 : strHasSub ":" e.name = true ∧ nsHead e.name ∈ linkNamespaces
  · simp [emitFact, h1, h2] at heq
  cases hc : e.contextRef with
  | none => simp [emitFact, h1, h2, hc] at heq
  | some cid =>
  by_cases hcz : cid = ""
  · simp [emitFact, h1, h2, hc, hcz] at heq
  by_cases hrz : pyStrip e.text = ""
  · simp [emitFact, h1, h2, hc, hcz, hrz] at heq
  by_cases hnum : e.unitRef.isSome = true ∨ e.decimals.isSome = true
  · simp [emitFact, h1, h2, hc, hcz, hrz, hnum] at heq
    subst heq
    refine ⟨hname, hcz, hrz, ?_⟩
    simpa using hnum
  · by_cases htb : strHasSub "TextBlock" e.name = true
    · simp [emitFact, h1, h2, hc, hcz, hrz, hnum, htb] at heq
    by_cases hlen : (pyStrip e.text).length > XbrlParser.MAX_TEXT_LENGTH
    · simp [emitFact, h1, h2, hc, hcz, hrz, hnum, htb, hlen] at heq
    · simp [emitFact, h1, h2, hc, hcz, hrz, hnum, htb, hlen] at heq
      subst heq
      refine ⟨hname, hcz, hrz, ?_⟩
      simpa using hnum

/-- C8: among elements that survive the structural-noise skips and carry a
non-empty contextRef and non-empty trimmed text, an element with no unitRef
and no decimals (classified text) is: never emitted when its tag name
contains TextBlock, regardless of length; also excluded when its trimmed
text exceeds MAX_TEXT_LENGTH; and emitted with normalized_value absent when
its trimmed text is within the limit.  Emission is per element: parse is the
filterMap of emitFact over the document. -/
theorem c8_text_filtering (sec : Option String) (did : String) (e : Element) (cid : String)
    (hc : e.contextRef = some cid) (hcz : cid ≠ "")
    (hrz : pyStrip e.text ≠ "")
    (hu : e.unitRef = Option.none) (hd : e.decimals = Option.none)
    (hn1 : e.name ∉ noiseTags)
    (hn2 : ¬(strHasSub ":" e.name = true ∧ nsHead e.name ∈ linkNamespaces)) :
    (ContainsSub "TextBlock" e.name → emitFact sec did e = Option.none) ∧
    (¬ContainsSub "TextBlock" e.name →
      (pyStrip e.text).length > XbrlParser.MAX_TEXT_LENGTH →
      emitFact sec did e = Option.none) ∧
    (¬ContainsSub "TextBlock" e.name →
      (pyStrip e.text).length ≤ XbrlParser.MAX_TEXT_LENGTH →
      ∃ f, emitFact sec did e = some f ∧ f.normalized_value = Option.none ∧
        f.tag_name = e.name ∧ f.raw_value = pyStrip e.text) := by
  refine ⟨fun htb => ?_, fun htb hlen => ?_, fun htb hlen => ?_⟩
  · have hb : strHasSub "TextBlock" e.name = true := (strHasSub_iff _ _).mpr htb
    simp [emitFact, hn1, hn2, hc, hcz, hrz, hu, hd, hb]
  · have hb : strHasSub "TextBlock" e.name = false := (strHasSub_false_iff _ _).mpr htb
    simp [emitFact, hn1, hn2, hc, hcz, hrz, hu, hd, hb, hlen]
  · have hb : strHasSub "TextBlock" e.name = false := (strHasSub_false_iff _ _).mpr htb
    have hlen2 : ¬((pyStrip e.text).length > XbrlParser.MAX_TEXT_LENGTH) := by omega
    refine ⟨{ security_code := match sec with
                | some s => if s = "" then "Unknown" else s
                | Option.none => "Unknown",
              doc_id := did, period := period_type_of cid, tag_name := e.name,
              context_id := cid, raw_value := pyStrip e.text,
              normalized_value := Option.none, unit := e.unitRef,
              decimals := e.decimals }, ?_, rfl, rfl, rfl⟩
    simp [emitFact, hn1, hn2, hc, hcz, hrz, hu, hd, hb, hlen2]

/-- C7 witness: the classifier theorem applied at the concrete identifier
CurrentYearConsolidated_Instant. -/
theorem c7_witness :
    ("CurrentYearConsolidated_Instant" : String) ≠ "" ∧
    ((ContextHandler.is_consolidated_current (some "CurrentYearConsolidated_Instant") = true ↔
        (ContainsSub "CurrentYear" "CurrentYearConsolidated_Instant" ∧
          HasConsolidatedNotNon "CurrentYearConsolidated_Instant" ∧
          ¬ContainsSub "NonConsolidated" "CurrentYearConsolidated_Instant")) ∧
      (ContainsSub "NonConsolidated" "CurrentYearConsolidated_Instant" →
        ContextHandler.is_consolidated_current
          (some "CurrentYearConsolidated_Instant") = false)) :=
  ⟨by decide, c7_is_consolidated_current_spec "CurrentYearConsolidated_Instant" (by decide)⟩

/-- C4 witness: the invariant theorem applied at the concrete document. -/
theorem c4_witness :
    (∀ e ∈ toyotaDoc, e.name ≠ "") ∧
    ∀ f ∈ XbrlParser.parse
        "XBRL/PublicDoc/jpcrp030000-asr-001_E00990-000_2023-12-31_01_2024-03-26.xbrl"
        toyotaDoc,
      f.tag_name ≠ "" ∧ f.context_id ≠ "" ∧ f.raw_value ≠ "" ∧
      (f.normalized_value.isSome ↔ (f.unit.isSome ∨ f.decimals.isSome)) :=
  ⟨by decide,
    c4_fact_invariants
      "XBRL/PublicDoc/jpcrp030000-asr-001_E00990-000_2023-12-31_01_2024-03-26.xbrl"
      toyotaDoc (by decide)⟩

/-- A concrete short text element surviving every skip rule. -/
def c8Elem : Element :=
  { name := "jpcrp_cor:NumberOfEmployees", contextRef := some "CurrentYearInstant",
    unitRef := Option.none, decimals := Option.none, text := "123" }

/-- C8 witness: the text-filtering theorem applied at a concrete element. -/
theorem c8_witness :
    c8Elem.contextRef = some "CurrentYearInstant" ∧
    ("CurrentYearInstant" : String) ≠ "" ∧
    pyStrip c8Elem.text ≠ "" ∧
    ((ContainsSub "TextBlock" c8Elem.name →
        emitFact Option.none "S100ABC" c8Elem = Option.none) ∧
      (¬ContainsSub "TextBlock" c8Elem.name →
        (pyStrip c8Elem.text).length > XbrlParser.MAX_TEXT_LENGTH →
        emitFact Option.none "S100ABC" c8Elem = Option.none) ∧
      (¬ContainsSub "TextBlock" c8Elem.name →
        (pyStrip c8Elem.text).length ≤ XbrlParser.MAX_TEXT_LENGTH →
        ∃ f, emitFact Option.none "S100ABC" c8Elem = some f ∧
          f.normalized_value = Option.none ∧ f.tag_name = c8Elem.name ∧
          f.raw_value = pyStrip c8Elem.text)) :=
  ⟨rfl, by decide, by decide,
    c8_text_filtering Option.none "S100ABC" c8Elem "CurrentYearInstant" rfl
      (by decide) (by decide) rfl rfl (by decide) (by decide)⟩
